import Mathlib

/-!
Verification development for the WiBLE provisioning library.

The definitions below are shallow embeddings of the C++ sources:
`StateManager.cpp` / `StateManager.h` (finite state machine),
`SecurityManager.cpp` / `SecurityManager.h` (session crypto), and
`ProvisioningOrchestrator.cpp` (credentials handling).  Machine bytes are
modelled as `Nat`, byte buffers as `List Nat`, and the AES-256 block cipher
(an external mbedTLS primitive, not part of this repository) as an explicit
pair of block functions passed as parameters.
-/

namespace WiBLE

/-- States of the provisioning FSM, from `WiBLE_Defs.h` (enum `ProvisioningState`). -/
inductive ProvisioningState
  | IDLE
  | BLE_ADVERTISING
  | BLE_CONNECTED
  | AUTHENTICATING
  | RECEIVING_CREDENTIALS
  | CONNECTING_WIFI
  | VALIDATING_CONNECTION
  | PROVISIONED
  | ERROR
deriving DecidableEq, Fintype

/-- Events of the provisioning FSM, from `StateManager.h` (enum `StateEvent`).
Note: `ProvisioningOrchestrator.cpp` refers to `START_WIFI_CONNECT` and
`WIFI_DISCONNECT`, identifiers that do not exist in the enum; the nearest
declared events are `WIFI_CONNECT_STARTED` and `WIFI_DISCONNECTED`, which we
use for those call sites. -/
inductive StateEvent
  | INIT_REQUESTED
  | RESET_REQUESTED
  | START_ADVERTISING
  | STOP_ADVERTISING
  | BLE_CLIENT_CONNECTED
  | BLE_CLIENT_DISCONNECTED
  | AUTH_STARTED
  | AUTH_SUCCESS
  | AUTH_FAILED
  | AUTH_TIMEOUT
  | CREDENTIALS_RECEIVED
  | CREDENTIALS_INVALID
  | WIFI_CONNECT_STARTED
  | WIFI_CONNECTED
  | WIFI_CONNECTION_FAILED
  | WIFI_DISCONNECTED
  | VALIDATION_STARTED
  | VALIDATION_SUCCESS
  | VALIDATION_FAILED
  | ERROR_OCCURRED
  | ERROR_RECOVERED
  | CONNECTION_TIMEOUT
  | PROVISIONING_TIMEOUT
deriving DecidableEq, Fintype

/-- A registered transition, from `StateManager.h` (struct `StateTransition`).
The C++ guard is a nullable function object; `canTransition()` returns true
when the guard is null or evaluates true.  The `guard` field below is the
value of `canTransition()`; every transition registered by
`defineDefaultTransitions` carries a null guard, i.e. `guard = true`. -/
structure StateTransition where
  fromState : ProvisioningState
  event : StateEvent
  toState : ProvisioningState
  guard : Bool := true
deriving DecidableEq, Fintype

open ProvisioningState StateEvent

/-- The transition table registered by `StateManager::defineDefaultTransitions`
(`StateManager.cpp` lines 210-263), in registration order.  The keys
`(fromState, event)` are pairwise distinct, so the `std::map` holds exactly
these entries. -/
def defaultTransitions : List StateTransition :=
  [ { fromState := IDLE, event := START_ADVERTISING, toState := BLE_ADVERTISING },
    { fromState := BLE_ADVERTISING, event := BLE_CLIENT_CONNECTED, toState := BLE_CONNECTED },
    { fromState := BLE_CONNECTED, event := AUTH_STARTED, toState := AUTHENTICATING },
    { fromState := AUTHENTICATING, event := AUTH_SUCCESS, toState := RECEIVING_CREDENTIALS },
    { fromState := RECEIVING_CREDENTIALS, event := CREDENTIALS_RECEIVED, toState := CONNECTING_WIFI },
    { fromState := CONNECTING_WIFI, event := WIFI_CONNECTED, toState := PROVISIONED },
    { fromState := CONNECTING_WIFI, event := WIFI_CONNECTION_FAILED, toState := ERROR },
    { fromState := ERROR, event := ERROR_RECOVERED, toState := IDLE },
    { fromState := BLE_CONNECTED, event := BLE_CLIENT_DISCONNECTED, toState := BLE_ADVERTISING },
    { fromState := AUTHENTICATING, event := BLE_CLIENT_DISCONNECTED, toState := BLE_ADVERTISING },
    { fromState := RECEIVING_CREDENTIALS, event := BLE_CLIENT_DISCONNECTED, toState := BLE_ADVERTISING } ]

/-- Lookup of `transitions.find({currentState, event})` in
`StateManager::handleEvent` (`StateManager.cpp` line 120-121). -/
def findTransition (s : ProvisioningState) (e : StateEvent) : Option StateTransition :=
  defaultTransitions.find? (fun t => t.fromState == s && t.event == e)

/-- Target state of the registered table entry for `(s, e)`, when one exists. -/
def tableTarget (s : ProvisioningState) (e : StateEvent) : Option ProvisioningState :=
  (findTransition s e).map (fun t => t.toState)

/-- The `currentState` / return-value core of `StateManager::handleEvent`
(`StateManager.cpp` lines 112-145 together with `executeTransition`
lines 147-173).  A matching table entry with a passing guard updates
`currentState` to the target and returns true; otherwise the two global
catch-alls build ad-hoc transitions to `IDLE` (on `RESET_REQUESTED`) and
`ERROR` (on `ERROR_OCCURRED`); any other unmatched event is logged and
ignored, returning false with the state unchanged. -/
def handleEvent (s : ProvisioningState) (e : StateEvent) : Bool × ProvisioningState :=
  match findTransition s e with
  | some t => if t.guard then (true, t.toState) else (false, s)
  | none =>
    if e == RESET_REQUESTED then (true, IDLE)
    else if e == ERROR_OCCURRED then (true, ERROR)
    else (false, s)

/-- State reached by feeding a list of events into the machine starting
from the boot state `IDLE` (`StateManager`'s constructor initialises
`currentState` to `IDLE`). -/
def runEvents (es : List StateEvent) : ProvisioningState :=
  es.foldl (fun s e => (handleEvent s e).2) IDLE

/-- C1: for every state S and event E, if (S,E) is registered in the
transition table then handleEvent returns true and moves to the table's
target; for every (S,E) not in the table where E is neither
RESET_REQUESTED nor ERROR_OCCURRED, handleEvent returns false and leaves
the state unchanged. -/
theorem handleEvent_matches_table (S : ProvisioningState) (E : StateEvent) :
    (∀ T, tableTarget S E = some T → handleEvent S E = (true, T)) ∧
    (tableTarget S E = none → E ≠ RESET_REQUESTED → E ≠ ERROR_OCCURRED →
      handleEvent S E = (false, S)) := by
  revert S E; decide

/-- Witness for C1: the theorem applied at a registered pair and at an
unregistered, non-catch-all pair. -/
theorem handleEvent_matches_table_witness :
    handleEvent IDLE START_ADVERTISING = (true, BLE_ADVERTISING) ∧
    handleEvent IDLE AUTH_SUCCESS = (false, IDLE) :=
  ⟨(handleEvent_matches_table IDLE START_ADVERTISING).1 BLE_ADVERTISING (by decide),
   (handleEvent_matches_table IDLE AUTH_SUCCESS).2 (by decide) (by decide) (by decide)⟩

/-- C3: in the step relation generated by handleEvent from the initial state
IDLE, a step that results in PROVISIONED either started in PROVISIONED
already (and then no transition fired), or was exactly the table transition
WIFI_CONNECTED out of CONNECTING_WIFI; in particular neither catch-all
ever targets PROVISIONED. -/
theorem provisioned_only_via_wifiConnected (es : List StateEvent) (e : StateEvent)
    (h : runEvents (es ++ [e]) = PROVISIONED) :
    runEvents es = PROVISIONED ∨
      (runEvents es = CONNECTING_WIFI ∧ e = WIFI_CONNECTED) := by
  have hstep : runEvents (es ++ [e]) = (handleEvent (runEvents es) e).2 := by
    simp [runEvents, List.foldl_append]
  rw [hstep] at h
  have hall : ∀ S E, (handleEvent S E).2 = PROVISIONED →
      S = PROVISIONED ∨ (S = CONNECTING_WIFI ∧ E = WIFI_CONNECTED) := by decide
  exact hall (runEvents es) e h

/-- Witness for C3: the theorem applied to the concrete happy-path trace. -/
theorem provisioned_only_via_wifiConnected_witness :
    runEvents [START_ADVERTISING, BLE_CLIENT_CONNECTED, AUTH_STARTED,
               AUTH_SUCCESS, CREDENTIALS_RECEIVED] = PROVISIONED ∨
      (runEvents [START_ADVERTISING, BLE_CLIENT_CONNECTED, AUTH_STARTED,
                  AUTH_SUCCESS, CREDENTIALS_RECEIVED] = CONNECTING_WIFI ∧
        WIFI_CONNECTED = WIFI_CONNECTED) :=
  provisioned_only_via_wifiConnected
    [START_ADVERTISING, BLE_CLIENT_CONNECTED, AUTH_STARTED,
     AUTH_SUCCESS, CREDENTIALS_RECEIVED] WIFI_CONNECTED (by decide)

/-- Observable steps performed by `StateManager::executeTransition`
(`StateManager.cpp` lines 147-173) and the hooks it calls
(`exitState` line 197-201, `enterState` lines 175-195,
`notifyTransition` lines 288-292). -/
inductive FsmAction
  | exitHook (s : ProvisioningState)
  | transitionAction
  | notifyListeners (source target : ProvisioningState) (e : StateEvent)
  | setCurrentState (s : ProvisioningState)
  | enterHook (s : ProvisioningState)
deriving DecidableEq

/-- Trace semantics of `StateManager::executeTransition`
(`StateManager.cpp` lines 147-173): when the guard fails the function
returns false without side effects; otherwise it performs, in source
order, (1) `exitState(currentState)`, (2) `transition.executeAction()`,
(3) `notifyTransition(currentState, transition.toState, event)`,
(4) the update of `previousState`/`currentState`, and
(5) `enterState(currentState)`, then returns true. -/
def executeTransitionTrace (cur : ProvisioningState) (t : StateTransition)
    (e : StateEvent) : List FsmAction × Bool × ProvisioningState :=
  if t.guard then
    ([FsmAction.exitHook cur, FsmAction.transitionAction,
      FsmAction.notifyListeners cur t.toState e,
      FsmAction.setCurrentState t.toState, FsmAction.enterHook t.toState],
     true, t.toState)
  else ([], false, cur)

/-- Modelled from the spec's words, for comparison with
`executeTransitionTrace`: the order claimed in the spec is exit-hook,
then transition action, then update of the current state, then
enter-hook of the new state, and finally the notification of the
transition listeners. -/
def specClaimedTrace (cur : ProvisioningState) (t : StateTransition)
    (e : StateEvent) : List FsmAction × Bool × ProvisioningState :=
  if t.guard then
    ([FsmAction.exitHook cur, FsmAction.transitionAction,
      FsmAction.setCurrentState t.toState, FsmAction.enterHook t.toState,
      FsmAction.notifyListeners cur t.toState e],
     true, t.toState)
  else ([], false, cur)

/-- Counterexample to C9: on the very first registered transition
(IDLE with START_ADVERTISING) the code's step order differs from the
claimed order, because `executeTransition` notifies the transition
listeners before updating `currentState` and entering the new state. -/
theorem executeTransition_order_counterexample :
    executeTransitionTrace IDLE
        { fromState := IDLE, event := START_ADVERTISING, toState := BLE_ADVERTISING }
        START_ADVERTISING ≠
      specClaimedTrace IDLE
        { fromState := IDLE, event := START_ADVERTISING, toState := BLE_ADVERTISING }
        START_ADVERTISING := by
  decide

/-- C9 as amended: when the guard of the matched transition evaluates
true, `executeTransition` performs exit-hook of the current state, then
the transition action, then the notification of the transition
listeners, then the update of the current state, and finally the
enter-hook of the new state, returning true with the new state. -/
theorem executeTransition_order (cur : ProvisioningState) (t : StateTransition)
    (e : StateEvent) (hg : t.guard = true) :
    executeTransitionTrace cur t e =
      ([FsmAction.exitHook cur, FsmAction.transitionAction,
        FsmAction.notifyListeners cur t.toState e,
        FsmAction.setCurrentState t.toState, FsmAction.enterHook t.toState],
       true, t.toState) := by
  simp [executeTransitionTrace, hg]

/-- Witness for C9's amended theorem at the IDLE advertising transition. -/
theorem executeTransition_order_witness :
    executeTransitionTrace IDLE
        { fromState := IDLE, event := START_ADVERTISING, toState := BLE_ADVERTISING }
        START_ADVERTISING =
      ([FsmAction.exitHook IDLE, FsmAction.transitionAction,
        FsmAction.notifyListeners IDLE BLE_ADVERTISING START_ADVERTISING,
        FsmAction.setCurrentState BLE_ADVERTISING, FsmAction.enterHook BLE_ADVERTISING],
       true, BLE_ADVERTISING) :=
  executeTransition_order IDLE
    { fromState := IDLE, event := START_ADVERTISING, toState := BLE_ADVERTISING }
    START_ADVERTISING rfl

/-- Bytewise exclusive-or of two buffers, the elementwise operation of
CBC chaining inside `mbedtls_aes_crypt_cbc` as used by
`SecurityManager::encrypt` / `decrypt`. -/
def xorBytes (a b : List Nat) : List Nat :=
  List.zipWith (fun x y => x ^^^ y) a b

/-- Fuel-indexed block splitter; the fuel only serves to make the
recursion structural and is irrelevant once it dominates the length. -/
def toBlocksF : Nat → List Nat → List (List Nat)
  | _, [] => []
  | 0, _ :: _ => []
  | fuel + 1, a :: rest => (a :: rest.take 15) :: toBlocksF fuel (rest.drop 15)

/-- Split a buffer into 16-byte blocks, the block iteration of
`mbedtls_aes_crypt_cbc` over a buffer whose length is a multiple of 16
(a trailing short chunk only arises on inputs the cipher call rejects). -/
def toBlocks (l : List Nat) : List (List Nat) :=
  toBlocksF l.length l

theorem toBlocksF_congr : ∀ (f₁ : Nat), ∀ (f₂ : Nat) (l : List Nat),
    l.length ≤ f₁ → l.length ≤ f₂ → toBlocksF f₁ l = toBlocksF f₂ l := by
  intro f₁
  induction f₁ with
  | zero =>
    intro f₂ l h₁ _
    have hl : l = [] := List.eq_nil_of_length_eq_zero (by omega)
    subst hl
    cases f₂ <;> rfl
  | succ f₁ ih =>
    intro f₂ l h₁ h₂
    cases l with
    | nil => cases f₂ <;> rfl
    | cons a rest =>
      cases f₂ with
      | zero => simp at h₂
      | succ f₂ =>
        simp only [List.length_cons] at h₁ h₂
        rw [toBlocksF, toBlocksF]
        rw [ih f₂ (rest.drop 15) (by simp only [List.length_drop]; omega)
          (by simp only [List.length_drop]; omega)]

theorem toBlocks_cons (a : Nat) (rest : List Nat) :
    toBlocks (a :: rest) = (a :: rest.take 15) :: toBlocks (rest.drop 15) := by
  show toBlocksF (rest.length + 1) (a :: rest) = _
  rw [toBlocksF]
  rw [toBlocksF_congr rest.length (rest.drop 15).length (rest.drop 15)
    (by simp) (by simp)]
  rfl

/-- CBC-mode encryption over a block cipher `encB`: each plaintext block is
xored with the previous ciphertext block (initially the IV) and then
enciphered.  This is the `MBEDTLS_AES_ENCRYPT` behaviour of
`mbedtls_aes_crypt_cbc` used in `SecurityManager::encrypt`
(`SecurityManager.cpp` lines 162-163). -/
def cbcEncryptBlocks (encB : List Nat → List Nat) : List Nat → List (List Nat) → List (List Nat)
  | _, [] => []
  | prev, b :: bs =>
    encB (xorBytes prev b) :: cbcEncryptBlocks encB (encB (xorBytes prev b)) bs

/-- CBC-mode decryption over a block cipher `decB`: each ciphertext block is
deciphered and xored with the previous ciphertext block (initially the IV).
This is the `MBEDTLS_AES_DECRYPT` behaviour of `mbedtls_aes_crypt_cbc` used
in `SecurityManager::decrypt` (`SecurityManager.cpp` lines 187-188). -/
def cbcDecryptBlocks (decB : List Nat → List Nat) : List Nat → List (List Nat) → List (List Nat)
  | _, [] => []
  | prev, c :: cs => xorBytes (decB c) prev :: cbcDecryptBlocks decB c cs

/-- PKCS#7 padding, from `SecurityManager::pkcs7Pad`
(`SecurityManager.cpp` lines 282-289): append `blockSize - size % blockSize`
copies of that count (a full extra block when the input length is already
a multiple of the block size). -/
def pkcs7Pad (data : List Nat) (blockSize : Nat) : List Nat :=
  let padding := blockSize - data.length % blockSize
  data ++ List.replicate padding padding

/-- PKCS#7 unpadding, from `SecurityManager::pkcs7Unpad`
(`SecurityManager.cpp` lines 291-302): read the final byte as the padding
count; reject (returning the empty buffer) when the buffer is empty, the
count is zero or exceeds the length, or any of the final `padding` bytes
differs from the count; otherwise strip the padding. -/
def pkcs7Unpad (data : List Nat) : List Nat :=
  if data.isEmpty then []
  else if data.getLastD 0 > data.length || data.getLastD 0 == 0 then []
  else if (List.range (data.getLastD 0)).all
      (fun i => data.getD (data.length - 1 - i) 0 == data.getLastD 0) then
    data.take (data.length - data.getLastD 0)
  else []

/-- Validity of a PKCS#7-padded buffer: the checks performed by
`SecurityManager::pkcs7Unpad` before it strips the padding, as a
standalone predicate. -/
def pkcs7PaddingOk (data : List Nat) : Bool :=
  !data.isEmpty &&
    !(data.getLastD 0 > data.length || data.getLastD 0 == 0) &&
      (List.range (data.getLastD 0)).all
        (fun i => data.getD (data.length - 1 - i) 0 == data.getLastD 0)

/-- The on-wire frame, from `SecurityManager.h` (struct `EncryptedMessage`,
lines 134-150).  The `authTag` and `messageId` fields play no role in the
CBC profile and are omitted; `isValid()` checks only that the ciphertext is
non-empty. -/
structure EncryptedMessage where
  ciphertext : List Nat
  iv : List Nat
  timestamp : Nat := 0
deriving DecidableEq

/-- Validity check of `EncryptedMessage::isValid` (`SecurityManager.h`
lines 141-143): only the ciphertext being non-empty is required; the IV
length is not inspected. -/
def EncryptedMessage.isValid (m : EncryptedMessage) : Bool :=
  !m.ciphertext.isEmpty

/-- The symmetric session key, from `SecurityManager.h` (struct
`SessionKey`, lines 92-114).  The session id is kept as raw bytes. -/
structure SessionKeyS where
  key : List Nat
  iv : List Nat
  createdAt : Nat := 0
  expiresAt : Nat := 0
  sessionId : List Nat := []
deriving DecidableEq

/-- Expiry check of `SessionKey::isExpired` (`SecurityManager.h`
lines 101-103): the key is expired when the current time `now`
(`millis()`) exceeds `expiresAt`. -/
def sessionKeyIsExpired (now : Nat) (k : SessionKeyS) : Bool :=
  decide (now > k.expiresAt)

/-- Mutable state of `SecurityManager` (`SecurityManager.h` lines 399-426)
restricted to the fields the session operations touch.  The mbedTLS
contexts are not data; the keyed AES permutations they hold are passed to
`encrypt` / `decrypt` as explicit block functions. -/
structure SecurityState where
  initialized : Bool := false
  sessionEstablished : Bool := false
  sharedSecret : List Nat := []
  sessionKey : SessionKeyS := { key := [], iv := [] }
  sessionStartTime : Nat := 0
  sessionTimeoutMs : Nat := 300000
  enablePFS : Bool := true
deriving DecidableEq

/-- Zeroing pass of `SecurityUtils::secureWipe` (`SecurityManager.cpp`
lines 270-274): `memset(data.data(), 0, data.size())`. -/
def secureWipeZeroed (data : List Nat) : List Nat :=
  List.replicate data.length 0

/-- Full `SecurityUtils::secureWipe` (`SecurityManager.cpp` lines 270-274):
on a non-empty buffer, zero every byte and then `clear()` the vector, so
the buffer ends empty. -/
def secureWipe (data : List Nat) : List Nat :=
  if data.isEmpty then data else (secureWipeZeroed data).drop data.length

/-- `SecurityManager::deriveSessionKey` (`SecurityManager.cpp` lines
120-140).  `hash` models SHA-256 (`SecurityManager::hash`), `freshIV` the
16 random bytes of `generateIV()`, `freshSid` the random session id, and
`now` the value of `millis()`.  On an empty shared secret the call fails
and changes nothing; otherwise the session key becomes the hash of the
shared secret, expiring at `now + sessionTimeoutMs`, the session is marked
established, and the shared secret is wiped before returning true. -/
def deriveSessionKey (hash : List Nat → List Nat) (freshIV freshSid : List Nat)
    (now : Nat) (st : SecurityState) : Bool × SecurityState :=
  if st.sharedSecret.isEmpty then (false, st)
  else
    (true,
     { st with
        sessionKey :=
          { key := hash st.sharedSecret, iv := freshIV, createdAt := now,
            expiresAt := now + st.sessionTimeoutMs, sessionId := freshSid },
        sessionEstablished := true,
        sessionStartTime := now,
        sharedSecret := secureWipe st.sharedSecret })

namespace SecurityManager

/-- `SecurityManager::encrypt` (`SecurityManager.cpp` lines 146-172).
Without an established session a default (empty) message is returned.
Otherwise the fresh 16-byte IV from `generateIV()` (modelled by the
`freshIV` parameter) is stored in the message and the PKCS#7-padded
plaintext is CBC-encrypted under it; the padded length is a positive
multiple of 16, for which the mbedTLS call succeeds. -/
def encrypt (encB : List Nat → List Nat) (st : SecurityState)
    (freshIV plaintext : List Nat) : EncryptedMessage :=
  if !st.sessionEstablished then { ciphertext := [], iv := [] }
  else
    { ciphertext := (cbcEncryptBlocks encB freshIV (toBlocks (pkcs7Pad plaintext 16))).flatten,
      iv := freshIV }

/-- `SecurityManager::decrypt` (`SecurityManager.cpp` lines 179-196).
The code returns the empty buffer when the session is not established or
the message fails `isValid()`; it then unconditionally copies 16 bytes out
of `encrypted.iv` (`memcpy(iv_copy, encrypted.iv.data(), 16)`) — an
out-of-range read when the IV holds fewer than 16 bytes, modelled here as
`none`; the mbedTLS CBC call rejects a ciphertext whose length is not a
multiple of 16 (the code then returns the empty buffer); otherwise the
result is the CBC decryption followed by PKCS#7 unpadding. -/
def decrypt (decB : List Nat → List Nat) (st : SecurityState)
    (encrypted : EncryptedMessage) : Option (List Nat) :=
  if !st.sessionEstablished || !encrypted.isValid then some []
  else if encrypted.iv.length < 16 then none
  else if encrypted.ciphertext.length % 16 != 0 then some []
  else
    some (pkcs7Unpad
      ((cbcDecryptBlocks decB (encrypted.iv.take 16) (toBlocks encrypted.ciphertext)).flatten))

/-- `SecurityManager::reset` (`SecurityManager.cpp` lines 46-53) as it acts
on the session fields: clear the established flag and `sessionKey.clear()`
(which empties the key, the IV seed and the session id,
`SecurityManager.h` lines 109-113).  `terminateSession`
(`SecurityManager.cpp` line 313) simply calls `reset`; the conditional
keypair regeneration touches only the asymmetric material, which is not
part of this state. -/
def reset (st : SecurityState) : SecurityState :=
  { st with
      sessionEstablished := false,
      sessionKey := { st.sessionKey with key := [], iv := [], sessionId := [] } }

end SecurityManager

theorem xorBytes_cancel (a : List Nat) : ∀ b : List Nat, a.length = b.length →
    xorBytes (xorBytes a b) a = b := by
  induction a with
  | nil =>
    intro b h
    cases b with
    | nil => rfl
    | cons y ys => simp at h
  | cons x xs ih =>
    intro b h
    cases b with
    | nil => simp at h
    | cons y ys =>
      have h' : xs.length = ys.length := by simpa using h
      have hx : (x ^^^ y) ^^^ x = y := by
        rw [Nat.xor_comm x y, Nat.xor_assoc, Nat.xor_self, Nat.xor_zero]
      simp only [xorBytes, List.zipWith_cons_cons] at *
      rw [hx, ih ys h']

theorem xorBytes_length (a b : List Nat) :
    (xorBytes a b).length = min a.length b.length := by
  simp [xorBytes]

theorem toBlocks_cons16 (b l : List Nat) (hb : b.length = 16) :
    toBlocks (b ++ l) = b :: toBlocks l := by
  cases b with
  | nil => simp at hb
  | cons a rest =>
    have h15 : rest.length = 15 := by simpa using hb
    show toBlocks (a :: (rest ++ l)) = (a :: rest) :: toBlocks l
    rw [toBlocks_cons]
    rw [List.take_left' h15, List.drop_left' h15]

theorem flatten_toBlocks (l : List Nat) : (toBlocks l).flatten = l := by
  have key : ∀ (n : Nat) (l : List Nat), l.length ≤ n → (toBlocks l).flatten = l := by
    intro n
    induction n with
    | zero =>
      intro l h
      have hl : l = [] := List.eq_nil_of_length_eq_zero (by omega)
      subst hl; rfl
    | succ n ih =>
      intro l h
      cases l with
      | nil => rfl
      | cons a rest =>
        simp only [List.length_cons] at h
        rw [toBlocks_cons]
        simp only [List.flatten_cons, List.cons_append]
        rw [ih (rest.drop 15) (by simp only [List.length_drop]; omega),
          List.take_append_drop]
  exact key l.length l le_rfl

theorem toBlocks_len16 (l : List Nat) (hmod : l.length % 16 = 0) :
    ∀ b ∈ toBlocks l, b.length = 16 := by
  have key : ∀ (n : Nat) (l : List Nat), l.length ≤ n → l.length % 16 = 0 →
      ∀ b ∈ toBlocks l, b.length = 16 := by
    intro n
    induction n with
    | zero =>
      intro l h _ b hb
      have hl : l = [] := List.eq_nil_of_length_eq_zero (by omega)
      subst hl; simp [toBlocks, toBlocksF] at hb
    | succ n ih =>
      intro l h hm b hb
      cases l with
      | nil => simp [toBlocks, toBlocksF] at hb
      | cons a rest =>
        simp only [List.length_cons] at h hm
        have hr : 15 ≤ rest.length := by omega
        rw [toBlocks_cons] at hb
        rcases List.mem_cons.mp hb with rfl | hb'
        · simp [List.length_take]; omega
        · refine ih (rest.drop 15) (by simp only [List.length_drop]; omega) ?_ b hb'
          simp only [List.length_drop]; omega
  exact key l.length l le_rfl hmod

theorem toBlocks_ne_nil (l : List Nat) (h : l ≠ []) : toBlocks l ≠ [] := by
  cases l with
  | nil => exact absurd rfl h
  | cons a rest => rw [toBlocks_cons]; simp

theorem toBlocks_flatten16 (L : List (List Nat)) (h : ∀ c ∈ L, c.length = 16) :
    toBlocks L.flatten = L := by
  induction L with
  | nil => simp [toBlocks, toBlocksF]
  | cons c L ih =>
    rw [List.flatten_cons, toBlocks_cons16 c L.flatten (h c (by simp))]
    rw [ih (fun x hx => h x (by simp [hx]))]

theorem flatten_len16 (L : List (List Nat)) (h : ∀ c ∈ L, c.length = 16) :
    L.flatten.length = 16 * L.length := by
  induction L with
  | nil => rfl
  | cons c L ih =>
    simp only [List.flatten_cons, List.length_append, List.length_cons]
    rw [h c (by simp), ih (fun x hx => h x (by simp [hx]))]
    ring

theorem cbcEncryptBlocks_len16 (encB : List Nat → List Nat)
    (hLen : ∀ b, b.length = 16 → (encB b).length = 16) :
    ∀ (bs : List (List Nat)) (prev : List Nat), prev.length = 16 →
      (∀ b ∈ bs, b.length = 16) →
      ∀ c ∈ cbcEncryptBlocks encB prev bs, c.length = 16 := by
  intro bs
  induction bs with
  | nil => intro prev _ _ c hc; simp [cbcEncryptBlocks] at hc
  | cons b bs ih =>
    intro prev hprev hbs c hc
    have hb : b.length = 16 := hbs b (by simp)
    have hxor : (xorBytes prev b).length = 16 := by
      rw [xorBytes_length, hprev, hb]; rfl
    have hc16 : (encB (xorBytes prev b)).length = 16 := hLen _ hxor
    rw [cbcEncryptBlocks] at hc
    rcases List.mem_cons.mp hc with rfl | hc'
    · exact hc16
    · exact ih (encB (xorBytes prev b)) hc16
        (fun x hx => hbs x (by simp [hx])) c hc'

theorem cbc_roundtrip (encB decB : List Nat → List Nat)
    (hInv : ∀ b, decB (encB b) = b)
    (hLen : ∀ b, b.length = 16 → (encB b).length = 16) :
    ∀ (bs : List (List Nat)) (prev : List Nat), prev.length = 16 →
      (∀ b ∈ bs, b.length = 16) →
      cbcDecryptBlocks decB prev (cbcEncryptBlocks encB prev bs) = bs := by
  intro bs
  induction bs with
  | nil => intro prev _ _; rfl
  | cons b bs ih =>
    intro prev hprev hbs
    have hb : b.length = 16 := hbs b (by simp)
    have hxor : (xorBytes prev b).length = 16 := by
      rw [xorBytes_length, hprev, hb]; rfl
    rw [cbcEncryptBlocks, cbcDecryptBlocks, hInv]
    rw [xorBytes_cancel prev b (by rw [hprev, hb])]
    rw [ih (encB (xorBytes prev b)) (hLen _ hxor)
        (fun x hx => hbs x (by simp [hx]))]

theorem pkcs7Pad_length_mod (P : List Nat) : (pkcs7Pad P 16).length % 16 = 0 := by
  simp only [pkcs7Pad, List.length_append, List.length_replicate]
  omega

theorem pkcs7Unpad_pkcs7Pad (P : List Nat) : pkcs7Unpad (pkcs7Pad P 16) = P := by
  obtain ⟨p', hp'⟩ : ∃ p', 16 - P.length % 16 = p' + 1 :=
    ⟨16 - P.length % 16 - 1, by omega⟩
  set p := 16 - P.length % 16 with hpdef
  have hp1 : 1 ≤ p := by omega
  have hdata : pkcs7Pad P 16 = P ++ List.replicate p p := rfl
  have hlast : (P ++ List.replicate p p).getLast? = some p := by
    rw [List.getLast?_append_of_ne_nil _ (by simp [hp']), hp', List.replicate_succ',
      List.getLast?_concat]
  have hlastD : (P ++ List.replicate p p).getLastD 0 = p := by
    rw [List.getLastD_eq_getLast?, hlast]; rfl
  have hempty : (P ++ List.replicate p p).isEmpty = false := by
    simp [hp']
  have hlen : (P ++ List.replicate p p).length = P.length + p := by simp
  have hcond : (decide (p > (P ++ List.replicate p p).length) || (p == 0)) = false := by
    rw [hlen]; simp; omega
  have hall : (List.range p).all
      (fun i => (P ++ List.replicate p p).getD
        ((P ++ List.replicate p p).length - 1 - i) 0 == p) = true := by
    rw [List.all_eq_true]
    intro i hi
    have hi' : i < p := List.mem_range.mp hi
    have hidx : (P ++ List.replicate p p).length - 1 - i = P.length + (p - 1 - i) := by
      rw [hlen]; omega
    rw [hidx]
    rw [List.getD_eq_getElem?_getD, List.getElem?_append_right (by omega)]
    have hsub : P.length + (p - 1 - i) - P.length = p - 1 - i := by omega
    rw [hsub, List.getElem?_replicate]
    simp [show p - 1 - i < p by omega]
  rw [hdata]
  simp only [pkcs7Unpad, hlastD, hempty, hcond, hall]
  simp only [Bool.false_eq_true, if_false, if_true]
  rw [hlen, show P.length + p - p = P.length from by omega]
  exact List.take_left P (List.replicate p p)

theorem pkcs7Unpad_eq_nil_of_not_ok (d : List Nat) (h : pkcs7PaddingOk d = false) :
    pkcs7Unpad d = [] := by
  unfold pkcs7PaddingOk at h
  unfold pkcs7Unpad
  cases hE : d.isEmpty with
  | true => simp
  | false =>
    simp only [Bool.not_false, Bool.true_and, Bool.false_eq_true, if_false] at h ⊢
    cases hC : (decide (d.getLastD 0 > d.length) || (d.getLastD 0 == 0)) with
    | true => simp
    | false =>
      rw [hE, hC] at h
      simp only [Bool.not_false, Bool.true_and] at h
      rw [h]
      simp

theorem pkcs7PaddingOk_of_unpad_ne_nil (d : List Nat) (h : pkcs7Unpad d ≠ []) :
    pkcs7PaddingOk d = true := by
  cases hok : pkcs7PaddingOk d with
  | false => exact absurd (pkcs7Unpad_eq_nil_of_not_ok d hok) h
  | true => rfl

theorem cbcEncryptBlocks_length (encB : List Nat → List Nat) :
    ∀ (bs : List (List Nat)) (prev : List Nat),
      (cbcEncryptBlocks encB prev bs).length = bs.length := by
  intro bs
  induction bs with
  | nil => intro prev; rfl
  | cons b bs ih => intro prev; rw [cbcEncryptBlocks]; simp [ih]

/-- Concrete block cipher used to evaluate the embedding on explicit inputs:
xor every byte with the constant 170.  It is a length-preserving involution,
so it satisfies the properties assumed of the keyed AES-256 block
permutations held in the mbedTLS contexts. -/
def xorCipher (b : List Nat) : List Nat :=
  b.map (fun x => x ^^^ 170)

theorem xorCipher_invol (b : List Nat) : xorCipher (xorCipher b) = b := by
  have hx : ∀ x : Nat, x ^^^ 170 ^^^ 170 = x := fun x => by
    rw [Nat.xor_assoc, Nat.xor_self, Nat.xor_zero]
  simp [xorCipher, List.map_map, Function.comp_def, hx]

theorem xorCipher_len16 (b : List Nat) (h : b.length = 16) :
    (xorCipher b).length = 16 := by
  simp [xorCipher, h]

/-- C2 as amended: once a session is established, decrypt inverts encrypt on
every plaintext of at most 256 bytes (for any block cipher pair that is an
inverse, length-preserving pair on 16-byte blocks, as the keyed AES
permutations are), given the fresh 16-byte IV drawn for the message. -/
theorem decrypt_encrypt_roundtrip (encB decB : List Nat → List Nat)
    (hInv : ∀ b, decB (encB b) = b)
    (hLen : ∀ b, b.length = 16 → (encB b).length = 16)
    (st : SecurityState) (hEst : st.sessionEstablished = true)
    (freshIV : List Nat) (hIV : freshIV.length = 16)
    (P : List Nat) (hP : P.length ≤ 256) :
    SecurityManager.decrypt decB st (SecurityManager.encrypt encB st freshIV P) =
      some P := by
  have hmod := pkcs7Pad_length_mod P
  have hblocks16 := toBlocks_len16 (pkcs7Pad P 16) hmod
  have hc16 : ∀ c ∈ cbcEncryptBlocks encB freshIV (toBlocks (pkcs7Pad P 16)),
      c.length = 16 :=
    cbcEncryptBlocks_len16 encB hLen _ freshIV hIV hblocks16
  have hpadpos : 0 < (pkcs7Pad P 16).length := by
    simp only [pkcs7Pad, List.length_append, List.length_replicate]; omega
  have hpad_ne : pkcs7Pad P 16 ≠ [] := by
    intro hnil; rw [hnil] at hpadpos; simp at hpadpos
  have hbs_ne : toBlocks (pkcs7Pad P 16) ≠ [] := toBlocks_ne_nil _ hpad_ne
  have hbspos : 0 < (toBlocks (pkcs7Pad P 16)).length := List.length_pos.mpr hbs_ne
  have hencLen : (cbcEncryptBlocks encB freshIV (toBlocks (pkcs7Pad P 16))).length =
      (toBlocks (pkcs7Pad P 16)).length := cbcEncryptBlocks_length encB _ freshIV
  have hctlen : (cbcEncryptBlocks encB freshIV (toBlocks (pkcs7Pad P 16))).flatten.length =
      16 * (cbcEncryptBlocks encB freshIV (toBlocks (pkcs7Pad P 16))).length :=
    flatten_len16 _ hc16
  have hctmod : (cbcEncryptBlocks encB freshIV (toBlocks (pkcs7Pad P 16))).flatten.length % 16 = 0 := by
    rw [hctlen]; omega
  have hctpos : 0 < (cbcEncryptBlocks encB freshIV (toBlocks (pkcs7Pad P 16))).flatten.length := by
    rw [hctlen, hencLen]; omega
  have hct_ne : (cbcEncryptBlocks encB freshIV (toBlocks (pkcs7Pad P 16))).flatten ≠ [] := by
    intro hnil; rw [hnil] at hctpos; simp at hctpos
  have henc : SecurityManager.encrypt encB st freshIV P =
      { ciphertext := (cbcEncryptBlocks encB freshIV (toBlocks (pkcs7Pad P 16))).flatten,
        iv := freshIV } := by
    unfold SecurityManager.encrypt
    rw [hEst]
    simp
  have hvalid : (SecurityManager.encrypt encB st freshIV P).isValid = true := by
    rw [henc]
    unfold EncryptedMessage.isValid
    cases hco : (cbcEncryptBlocks encB freshIV (toBlocks (pkcs7Pad P 16))).flatten with
    | nil => exact absurd hco hct_ne
    | cons x xs => rfl
  rw [henc] at hvalid
  rw [henc]
  unfold SecurityManager.decrypt
  rw [hEst, hvalid]
  simp only [Bool.not_true, Bool.or_self, Bool.false_eq_true, if_false]
  rw [if_neg (by rw [hIV]; omega)]
  rw [if_neg (by rw [hctmod]; simp)]
  have htake : freshIV.take 16 = freshIV := by
    rw [← hIV]; simp
  rw [htake, toBlocks_flatten16 _ hc16,
    cbc_roundtrip encB decB hInv hLen _ freshIV hIV hblocks16,
    flatten_toBlocks, pkcs7Unpad_pkcs7Pad]

/-- Concrete established session state used for evaluations; its expiry
stamp is 5 ms after boot. -/
def secEx : SecurityState :=
  { initialized := true, sessionEstablished := true, sharedSecret := [],
    sessionKey := { key := List.replicate 32 7, iv := List.replicate 16 0,
                    createdAt := 0, expiresAt := 5, sessionId := [] },
    sessionStartTime := 0, sessionTimeoutMs := 300000, enablePFS := true }

/-- The frame produced by `encrypt` for a 17-byte plaintext under
`xorCipher` and the all-zero IV: two ciphertext blocks. -/
def msgC2 : EncryptedMessage :=
  SecurityManager.encrypt xorCipher secEx (List.replicate 16 0) (List.replicate 17 65)

/-- The frame `msgC2` with its first IV byte flipped from 0 to 1. -/
def msgC2tampered : EncryptedMessage :=
  { msgC2 with iv := 1 :: msgC2.iv.drop 1 }

/-- Counterexample to C2: decrypting a frame whose IV was tampered with
does not return the empty error result — it succeeds and returns a
non-empty plaintext that differs from the one the untampered frame
yields, because the final-block PKCS#7 padding is unaffected by the IV. -/
theorem decrypt_tampered_iv_counterexample :
    msgC2tampered.iv ≠ msgC2.iv ∧
    msgC2tampered.ciphertext = msgC2.ciphertext ∧
    SecurityManager.decrypt xorCipher secEx msgC2tampered ≠ some [] ∧
    SecurityManager.decrypt xorCipher secEx msgC2tampered ≠ none ∧
    SecurityManager.decrypt xorCipher secEx msgC2tampered ≠
      SecurityManager.decrypt xorCipher secEx msgC2 := by
  decide

/-- Witness for C2's amended round-trip theorem at a concrete 17-byte
plaintext under the explicit involutive block cipher. -/
theorem decrypt_encrypt_roundtrip_witness :
    SecurityManager.decrypt xorCipher secEx
        (SecurityManager.encrypt xorCipher secEx (List.replicate 16 0)
          (List.replicate 17 65)) =
      some (List.replicate 17 65) :=
  decrypt_encrypt_roundtrip xorCipher xorCipher xorCipher_invol
    (fun b hb => xorCipher_len16 b hb) secEx rfl (List.replicate 16 0) (by decide)
    (List.replicate 17 65) (by decide)

/-- C7 as amended: decrypt returns the empty error buffer whenever the
session is not established, the ciphertext is empty, the ciphertext length
is not a multiple of 16, or the PKCS#7 padding of the CBC-decrypted data is
invalid; and a non-empty plaintext is returned only when all of those
checks pass, in which case it is exactly the unpadded CBC decryption.
Session expiry is not among the checks (see the counterexample), and the
padding check walks the padding bytes with an early-exit loop rather than
a constant-time comparison, a timing property with no observable
counterpart in this value-level embedding. -/
theorem decrypt_error_conditions (decB : List Nat → List Nat) (st : SecurityState)
    (msg : EncryptedMessage) :
    (st.sessionEstablished = false → SecurityManager.decrypt decB st msg = some []) ∧
    (msg.ciphertext = [] → SecurityManager.decrypt decB st msg = some []) ∧
    (16 ≤ msg.iv.length → msg.ciphertext.length % 16 ≠ 0 →
      SecurityManager.decrypt decB st msg = some []) ∧
    (16 ≤ msg.iv.length →
      pkcs7PaddingOk ((cbcDecryptBlocks decB (msg.iv.take 16) (toBlocks msg.ciphertext)).flatten) = false →
      SecurityManager.decrypt decB st msg = some []) ∧
    (∀ r, SecurityManager.decrypt decB st msg = some r → r ≠ [] →
      st.sessionEstablished = true ∧ msg.ciphertext ≠ [] ∧
      msg.ciphertext.length % 16 = 0 ∧
      pkcs7PaddingOk ((cbcDecryptBlocks decB (msg.iv.take 16) (toBlocks msg.ciphertext)).flatten) = true ∧
      r = pkcs7Unpad ((cbcDecryptBlocks decB (msg.iv.take 16) (toBlocks msg.ciphertext)).flatten)) := by
  refine ⟨?_, ?_, ?_, ?_, ?_⟩
  · intro h
    unfold SecurityManager.decrypt
    rw [h]
    simp
  · intro h
    unfold SecurityManager.decrypt EncryptedMessage.isValid
    rw [h]
    simp
  · intro hiv hmod
    unfold SecurityManager.decrypt
    by_cases h1 : (!st.sessionEstablished || !msg.isValid) = true
    · rw [if_pos h1]
    · rw [if_neg h1, if_neg (by omega : ¬msg.iv.length < 16)]
      rw [if_pos (by simpa [bne_iff_ne] using hmod)]
  · intro hiv hpad
    unfold SecurityManager.decrypt
    by_cases h1 : (!st.sessionEstablished || !msg.isValid) = true
    · rw [if_pos h1]
    · rw [if_neg h1, if_neg (by omega : ¬msg.iv.length < 16)]
      by_cases h2 : (msg.ciphertext.length % 16 != 0) = true
      · rw [if_pos h2]
      · rw [if_neg h2, pkcs7Unpad_eq_nil_of_not_ok _ hpad]
  · intro r hr hne
    unfold SecurityManager.decrypt at hr
    split_ifs at hr with h1 h2 h3
    · have hre : r = [] := by simpa using hr.symm
      exact absurd hre hne
    · have hre : r = [] := by simpa using hr.symm
      exact absurd hre hne
    · have hrr : r = pkcs7Unpad ((cbcDecryptBlocks decB (msg.iv.take 16) (toBlocks msg.ciphertext)).flatten) := by
        simpa using hr.symm
      simp only [Bool.or_eq_true, not_or] at h1
      obtain ⟨hest0, hval0⟩ := h1
      have hest : st.sessionEstablished = true := by
        revert hest0; cases st.sessionEstablished <;> simp
      have hval' : msg.isValid = true := by
        revert hval0; cases msg.isValid <;> simp
      have hctne : msg.ciphertext ≠ [] := by
        unfold EncryptedMessage.isValid at hval'
        intro hnil
        rw [hnil] at hval'
        simp at hval'
      have hmod' : msg.ciphertext.length % 16 = 0 := by
        revert h3
        simp [bne_iff_ne]
      have hpadok : pkcs7PaddingOk ((cbcDecryptBlocks decB (msg.iv.take 16) (toBlocks msg.ciphertext)).flatten) = true := by
        apply pkcs7PaddingOk_of_unpad_ne_nil
        rw [← hrr]
        exact hne
      exact ⟨hest, hctne, hmod', hpadok, hrr⟩

/-- Single-block frame whose CBC decryption under `xorCipher` and the
all-zero IV ends in a valid 1-byte padding: the plaintext is 15 bytes of
65 followed by the padding byte 1. -/
def msgC7 : EncryptedMessage :=
  { ciphertext := List.replicate 15 235 ++ [171], iv := List.replicate 16 0 }

/-- Counterexample to C7: the session key of `secEx` is expired at time 6
(its expiry stamp is 5) and the session is still marked established, yet
decrypt succeeds with a non-empty plaintext — decrypt never consults the
expiry, so an expired session does not yield an error. -/
theorem decrypt_ignores_expiry_counterexample :
    sessionKeyIsExpired 6 secEx.sessionKey = true ∧
    secEx.sessionEstablished = true ∧
    SecurityManager.decrypt xorCipher secEx msgC7 = some (List.replicate 15 65) ∧
    List.replicate 15 65 ≠ ([] : List Nat) := by
  decide

/-- Witness for C7's amended theorem: the no-session clause and the
wrong-length clause applied at concrete inputs. -/
theorem decrypt_error_conditions_witness :
    SecurityManager.decrypt xorCipher ({} : SecurityState) msgC7 = some [] ∧
    SecurityManager.decrypt xorCipher secEx
      { ciphertext := [1, 2, 3], iv := List.replicate 16 0 } = some [] :=
  ⟨(decrypt_error_conditions xorCipher ({} : SecurityState) msgC7).1 rfl,
   (decrypt_error_conditions xorCipher secEx
      { ciphertext := [1, 2, 3], iv := List.replicate 16 0 }).2.2.1
      (by decide) (by decide)⟩

/-- C8: a successful deriveSessionKey call returns true, sets the session
key to the hash (SHA-256) of the shared secret, sets the expiry to
now + sessionTimeoutMs, marks the session established, and leaves the
shared-secret buffer wiped (every byte zeroed by the memset pass, then
emptied) before returning. -/
theorem deriveSessionKey_spec (hash : List Nat → List Nat) (freshIV freshSid : List Nat)
    (now : Nat) (st : SecurityState) (h : st.sharedSecret ≠ []) :
    (deriveSessionKey hash freshIV freshSid now st).1 = true ∧
    (deriveSessionKey hash freshIV freshSid now st).2.sessionKey.key = hash st.sharedSecret ∧
    (deriveSessionKey hash freshIV freshSid now st).2.sessionKey.expiresAt = now + st.sessionTimeoutMs ∧
    (deriveSessionKey hash freshIV freshSid now st).2.sessionEstablished = true ∧
    (deriveSessionKey hash freshIV freshSid now st).2.sharedSecret = [] ∧
    (secureWipeZeroed st.sharedSecret).all (fun b => b == 0) = true := by
  have hne : st.sharedSecret.isEmpty = false := by
    cases hs : st.sharedSecret with
    | nil => exact absurd hs h
    | cons a l => rfl
  unfold deriveSessionKey
  rw [hne]
  refine ⟨rfl, rfl, rfl, rfl, ?_, ?_⟩
  · show secureWipe st.sharedSecret = []
    unfold secureWipe secureWipeZeroed
    rw [hne]
    simp
  · rw [List.all_eq_true]
    intro b hb
    unfold secureWipeZeroed at hb
    simp [List.eq_of_mem_replicate hb]

/-- Fresh security state holding only a computed shared secret, as left by
`computeSharedSecret`. -/
def secPre : SecurityState := { sharedSecret := [1, 2, 3] }

/-- Witness for C8 at a concrete 3-byte shared secret, with the involutive
byte cipher standing in for SHA-256. -/
theorem deriveSessionKey_spec_witness :
    (deriveSessionKey xorCipher (List.replicate 16 0) [9] 100 secPre).1 = true ∧
    (deriveSessionKey xorCipher (List.replicate 16 0) [9] 100 secPre).2.sessionKey.key = xorCipher secPre.sharedSecret ∧
    (deriveSessionKey xorCipher (List.replicate 16 0) [9] 100 secPre).2.sessionKey.expiresAt = 100 + secPre.sessionTimeoutMs ∧
    (deriveSessionKey xorCipher (List.replicate 16 0) [9] 100 secPre).2.sessionEstablished = true ∧
    (deriveSessionKey xorCipher (List.replicate 16 0) [9] 100 secPre).2.sharedSecret = [] ∧
    (secureWipeZeroed secPre.sharedSecret).all (fun b => b == 0) = true :=
  deriveSessionKey_spec xorCipher (List.replicate 16 0) [9] 100 secPre (by decide)

/-- C10: under an established session, a message with a non-empty
ciphertext passes `isValid`, yet when its IV holds fewer than 16 bytes
the unconditional 16-byte copy out of the IV buffer in decrypt reads out
of range — in this total embedding the guarded access fails and decrypt
is undefined (`none`). -/
theorem decrypt_short_iv_out_of_range (decB : List Nat → List Nat)
    (st : SecurityState) (msg : EncryptedMessage)
    (hEst : st.sessionEstablished = true)
    (hct : msg.ciphertext ≠ []) (hiv : msg.iv.length < 16) :
    EncryptedMessage.isValid msg = true ∧
    SecurityManager.decrypt decB st msg = none := by
  have hvalid : msg.isValid = true := by
    unfold EncryptedMessage.isValid
    cases hco : msg.ciphertext with
    | nil => exact absurd hco hct
    | cons x xs => rfl
  refine ⟨hvalid, ?_⟩
  unfold SecurityManager.decrypt
  rw [hEst, hvalid]
  simp only [Bool.not_true, Bool.or_self, Bool.false_eq_true, if_false]
  rw [if_pos hiv]

/-- Witness for C10: a one-byte IV with a one-byte ciphertext. -/
theorem decrypt_short_iv_out_of_range_witness :
    EncryptedMessage.isValid { ciphertext := [1], iv := [0] } = true ∧
    SecurityManager.decrypt xorCipher secEx { ciphertext := [1], iv := [0] } = none :=
  decrypt_short_iv_out_of_range xorCipher secEx { ciphertext := [1], iv := [0] }
    rfl (by decide) (by decide)

/-- Combined state of the FSM and the security manager, the two objects the
orchestrator holds pointers to (`ProvisioningOrchestrator.h` lines 39-42). -/
structure SystemState where
  fsm : ProvisioningState
  sec : SecurityState
deriving DecidableEq

/-- Handling of a BLE client disconnect as wired in the source.
`BLEManager::ServerCallbacks::onDisconnect` (`BLEManager.cpp` lines 159-163)
only invokes a registered `disconnectionCallback`; `WiBLE::begin`
(`WiBLE.cpp` lines 49-102) registers none, and no code in the repository
reacts to a disconnect by calling `SecurityManager::reset` or
`terminateSession`.  Processing the `BLE_CLIENT_DISCONNECTED` event is
therefore the state-machine dispatch alone; the security state is
untouched. -/
def handleBleClientDisconnected (st : SystemState) : Bool × SystemState :=
  ((handleEvent st.fsm StateEvent.BLE_CLIENT_DISCONNECTED).1,
   { st with fsm := (handleEvent st.fsm StateEvent.BLE_CLIENT_DISCONNECTED).2 })

/-- WiFi credentials, from `WiBLE_Defs.h` (struct `WiFiCredentials`);
strings are byte lists.  The securityType and hidden fields never influence
`isValid` or the connect call and are omitted. -/
structure WiFiCredentials where
  ssid : List Nat := []
  password : List Nat := []
deriving DecidableEq

/-- Validity check of `WiFiCredentials::isValid` (`WiBLE_Defs.h` lines
18-21): non-empty SSID of at most 32 bytes and a password of at most 64
bytes. -/
def WiFiCredentials.isValid (c : WiFiCredentials) : Bool :=
  !c.ssid.isEmpty && c.ssid.length ≤ 32 && c.password.length ≤ 64

/-- First index `i` with `start ≤ i` at which `needle` occurs in `hay`,
mirroring Arduino `String::indexOf(needle, start)`; `none` models the -1
return. -/
def indexOfFrom (hay needle : List Nat) (start : Nat) : Option Nat :=
  ((List.range (hay.length + 1)).filter
    (fun i => start ≤ i && needle.isPrefixOf (hay.drop i))).head?

/-- Byte literal of the C++ search key for the ssid field: a double quote,
the four letters ssid, a double quote, a colon, a double quote. -/
def ssidKey : List Nat := [34, 115, 115, 105, 100, 34, 58, 34]

/-- Byte literal of the C++ search key for the pass field. -/
def passKey : List Nat := [34, 112, 97, 115, 115, 34, 58, 34]

/-- `ProvisioningOrchestrator::parseCredentials`
(`ProvisioningOrchestrator.cpp` lines 90-114): locate each key by literal
search, then take the substring up to the next double quote; a missing key
or missing closing quote leaves the field empty. -/
def parseCredentials (json : List Nat) : WiFiCredentials :=
  { ssid :=
      match indexOfFrom json ssidKey 0 with
      | none => []
      | some i =>
        match indexOfFrom json [34] (i + 8) with
        | none => []
        | some e => (json.take e).drop (i + 8),
    password :=
      match indexOfFrom json passKey 0 with
      | none => []
      | some i =>
        match indexOfFrom json [34] (i + 8) with
        | none => []
        | some e => (json.take e).drop (i + 8) }

/-- JSON status notification built by
`ProvisioningOrchestrator::sendResponse` (`ProvisioningOrchestrator.cpp`
lines 116-121) and pushed to the status characteristic. -/
def sendResponse (status msg : String) : String :=
  "\x7b\"status\":\"" ++ status ++ "\",\"msg\":\"" ++ msg ++ "\"\x7d"

/-- Tail of `ProvisioningOrchestrator::handleCredentials` after the
decrypted data is in hand (`ProvisioningOrchestrator.cpp` lines 62-84):
empty data reports a decryption failure, unparsable credentials report an
invalid format, and otherwise the `START_WIFI_CONNECT` event (the declared
`WIFI_CONNECT_STARTED`) is fired and `WiFiManager::connect(ssid, password)`
is invoked.  The second component lists the status notifications emitted,
the third the (ssid, password) pair handed to the Wi-Fi subsystem. -/
def handleCredentialsRest (st : SystemState) (decryptedData : List Nat) :
    SystemState × List String × Option (List Nat × List Nat) :=
  if decryptedData.isEmpty then
    (st, [sendResponse "ERROR" "Decryption failed"], none)
  else
    if !(parseCredentials decryptedData).isValid then
      (st, [sendResponse "ERROR" "Invalid format"], none)
    else
      ({ st with fsm := (handleEvent st.fsm StateEvent.WIFI_CONNECT_STARTED).2 },
       [],
       some ((parseCredentials decryptedData).ssid,
             (parseCredentials decryptedData).password))

/-- `ProvisioningOrchestrator::handleCredentials`
(`ProvisioningOrchestrator.cpp` lines 39-84).  `CREDENTIALS_RECEIVED` is
fired on frame receipt, before any decryption.  With an established session
the frame must exceed 16 bytes (otherwise the handler logs and returns) and
is split as a 16-byte IV followed by the ciphertext and decrypted; the IV
slice has exactly 16 bytes on this path, so the guarded IV access of
decrypt cannot fail and the default of `getD` is never taken.  Without an
established session the frame bytes are used as plaintext directly. -/
def handleCredentials (decB : List Nat → List Nat) (st : SystemState)
    (data : List Nat) : SystemState × List String × Option (List Nat × List Nat) :=
  if st.sec.sessionEstablished then
    if 16 < data.length then
      handleCredentialsRest
        { fsm := (handleEvent st.fsm StateEvent.CREDENTIALS_RECEIVED).2, sec := st.sec }
        ((SecurityManager.decrypt decB st.sec
          { iv := data.take 16, ciphertext := data.drop 16 }).getD [])
    else
      ({ fsm := (handleEvent st.fsm StateEvent.CREDENTIALS_RECEIVED).2, sec := st.sec },
       [], none)
  else
    handleCredentialsRest
      { fsm := (handleEvent st.fsm StateEvent.CREDENTIALS_RECEIVED).2, sec := st.sec }
      data

/-- Fold of consecutive credential frames through `handleCredentials`,
keeping the resulting system state. -/
def applyCredFrames (decB : List Nat → List Nat) (st : SystemState)
    (frames : List (List Nat)) : SystemState :=
  frames.foldl (fun s d => (handleCredentials decB s d).1) st

/-- Counterexample to C4: from AUTHENTICATING with the established session
`secEx`, processing the disconnect moves the FSM to BLE_ADVERTISING but the
session remains established with its key bytes intact — nothing on the
disconnect path invalidates the SessionKey. -/
theorem bleDisconnect_keeps_session_counterexample :
    (handleBleClientDisconnected { fsm := AUTHENTICATING, sec := secEx }).2.fsm = BLE_ADVERTISING ∧
    (handleBleClientDisconnected { fsm := AUTHENTICATING, sec := secEx }).2.sec.sessionEstablished = true ∧
    (handleBleClientDisconnected { fsm := AUTHENTICATING, sec := secEx }).2.sec.sessionKey.key ≠ [] := by
  decide

/-- C4 as amended: handling BLE_CLIENT_DISCONNECTED from any of the three
mid-handshake states succeeds and moves the machine to BLE_ADVERTISING,
but leaves the security state untouched — the SessionKey is not
invalidated, since no code on the disconnect path calls
`SecurityManager::reset`/`terminateSession`; those calls, when made
explicitly, do clear the established flag and the key bytes. -/
theorem bleDisconnect_to_advertising (st : SystemState)
    (h : st.fsm = BLE_CONNECTED ∨ st.fsm = AUTHENTICATING ∨
      st.fsm = RECEIVING_CREDENTIALS) :
    handleBleClientDisconnected st = (true, { st with fsm := BLE_ADVERTISING }) ∧
    (SecurityManager.reset st.sec).sessionEstablished = false ∧
    (SecurityManager.reset st.sec).sessionKey.key = [] := by
  obtain ⟨f, sec⟩ := st
  have hf : f = BLE_CONNECTED ∨ f = AUTHENTICATING ∨ f = RECEIVING_CREDENTIALS := h
  rcases hf with hf | hf | hf <;> subst hf <;> exact ⟨rfl, rfl, rfl⟩

/-- Witness for C4's amended theorem at the AUTHENTICATING state with the
concrete established session. -/
theorem bleDisconnect_to_advertising_witness :
    handleBleClientDisconnected { fsm := AUTHENTICATING, sec := secEx } =
      (true, { fsm := BLE_ADVERTISING, sec := secEx }) ∧
    (SecurityManager.reset secEx).sessionEstablished = false ∧
    (SecurityManager.reset secEx).sessionKey.key = [] :=
  bleDisconnect_to_advertising { fsm := AUTHENTICATING, sec := secEx }
    (Or.inr (Or.inl rfl))

/-- System state in RECEIVING_CREDENTIALS with the concrete established
session. -/
def stC5 : SystemState := { fsm := RECEIVING_CREDENTIALS, sec := secEx }

/-- A 32-byte credentials frame (16 IV bytes, 16 ciphertext bytes) whose
single plaintext block ends in the byte 0 under `xorCipher`, failing the
PKCS#7 padding check. -/
def badFrame : List Nat := List.replicate 16 0 ++ List.replicate 16 170

/-- Counterexample to C5: in RECEIVING_CREDENTIALS a frame that fails to
decrypt does produce the ERROR status notification for a decryption
failure, but the FSM does not remain in RECEIVING_CREDENTIALS — it is
already in CONNECTING_WIFI, because CREDENTIALS_RECEIVED is fired on frame
receipt before decryption; and after 3 such failures the state is still
CONNECTING_WIFI, not ERROR — no failure counter exists and ERROR_OCCURRED
is never fired. -/
theorem credentials_decrypt_failure_counterexample :
    (handleCredentials xorCipher stC5 badFrame).2.1 =
      [sendResponse "ERROR" "Decryption failed"] ∧
    (handleCredentials xorCipher stC5 badFrame).1.fsm = CONNECTING_WIFI ∧
    (handleCredentials xorCipher stC5 badFrame).1.fsm ≠ RECEIVING_CREDENTIALS ∧
    (applyCredFrames xorCipher stC5 (List.replicate 3 badFrame)).fsm = CONNECTING_WIFI ∧
    (applyCredFrames xorCipher stC5 (List.replicate 3 badFrame)).fsm ≠ ERROR := by
  decide

/-- C5 as amended: when a frame longer than 16 bytes fails to decrypt
(empty result) under an established session while the machine is in
RECEIVING_CREDENTIALS, the orchestrator emits the decryption-failure ERROR
status notification and does not invoke the Wi-Fi subsystem, but the FSM
is already in CONNECTING_WIFI (CREDENTIALS_RECEIVED fires on frame
receipt, before decryption), and there is no failure counter: any number
of further identical failing frames leaves the machine in CONNECTING_WIFI;
ERROR_OCCURRED never fires and the ERROR state is never reached. -/
theorem credentials_decrypt_failure (decB : List Nat → List Nat)
    (st : SystemState) (data : List Nat)
    (hFsm : st.fsm = RECEIVING_CREDENTIALS)
    (hEst : st.sec.sessionEstablished = true) (hLen : 16 < data.length)
    (hDec : SecurityManager.decrypt decB st.sec
      { iv := data.take 16, ciphertext := data.drop 16 } = some []) :
    (handleCredentials decB st data).2.1 = [sendResponse "ERROR" "Decryption failed"] ∧
    (handleCredentials decB st data).2.2 = none ∧
    (handleCredentials decB st data).1.fsm = CONNECTING_WIFI ∧
    (handleCredentials decB st data).1.sec = st.sec ∧
    ∀ n, (applyCredFrames decB (handleCredentials decB st data).1
      (List.replicate n data)).fsm = CONNECTING_WIFI := by
  have h1 : handleCredentials decB st data =
      ({ fsm := CONNECTING_WIFI, sec := st.sec },
       [sendResponse "ERROR" "Decryption failed"], none) := by
    unfold handleCredentials
    rw [hFsm, hEst, hDec]
    rw [if_pos rfl, if_pos hLen]
    rfl
  have hstep : ∀ s : SystemState, s.fsm = CONNECTING_WIFI → s.sec = st.sec →
      (handleCredentials decB s data).1.fsm = CONNECTING_WIFI ∧
      (handleCredentials decB s data).1.sec = st.sec := by
    intro s hs hsec
    have h2 : handleCredentials decB s data =
        ({ fsm := CONNECTING_WIFI, sec := st.sec },
         [sendResponse "ERROR" "Decryption failed"], none) := by
      unfold handleCredentials
      rw [hs, hsec, hEst, hDec]
      rw [if_pos rfl, if_pos hLen]
      rfl
    rw [h2]
    exact ⟨rfl, rfl⟩
  have hiter : ∀ (n : Nat) (s : SystemState), s.fsm = CONNECTING_WIFI →
      s.sec = st.sec →
      (applyCredFrames decB s (List.replicate n data)).fsm = CONNECTING_WIFI := by
    intro n
    induction n with
    | zero => intro s hs _; simpa [applyCredFrames] using hs
    | succ n ih =>
      intro s hs hsec
      rw [List.replicate_succ]
      unfold applyCredFrames
      rw [List.foldl_cons]
      exact ih _ (hstep s hs hsec).1 (hstep s hs hsec).2
  rw [h1]
  refine ⟨rfl, rfl, rfl, rfl, ?_⟩
  intro n
  exact hiter n _ rfl rfl

/-- Witness for C5's amended theorem at the concrete failing frame, with
the repetition clause instantiated at 3 frames. -/
theorem credentials_decrypt_failure_witness :
    (handleCredentials xorCipher stC5 badFrame).2.1 =
      [sendResponse "ERROR" "Decryption failed"] ∧
    (handleCredentials xorCipher stC5 badFrame).2.2 = none ∧
    (handleCredentials xorCipher stC5 badFrame).1.fsm = CONNECTING_WIFI ∧
    (handleCredentials xorCipher stC5 badFrame).1.sec = stC5.sec ∧
    (applyCredFrames xorCipher (handleCredentials xorCipher stC5 badFrame).1
      (List.replicate 3 badFrame)).fsm = CONNECTING_WIFI := by
  have h := credentials_decrypt_failure xorCipher stC5 badFrame rfl rfl
    (by decide) (by decide)
  exact ⟨h.1, h.2.1, h.2.2.1, h.2.2.2.1, h.2.2.2.2 3⟩

/-- The 13 bytes of a plaintext JSON frame carrying ssid ab: an opening
brace, the quoted ssid key, the two letters, a closing quote and brace. -/
def frameC6 : List Nat := [123, 34, 115, 115, 105, 100, 34, 58, 34, 97, 98, 34, 125]

/-- Counterexample to C6: with no session established, a 13-byte write to
the credentials characteristic is not rejected — it is processed as
plaintext, credentials are parsed out of it (ssid of two bytes, empty
password) and the Wi-Fi subsystem is invoked — refuting both the
established-session requirement and the rejection of frames of at most 16
bytes. -/
theorem credentials_no_session_counterexample :
    ({ fsm := RECEIVING_CREDENTIALS, sec := {} } : SystemState).sec.sessionEstablished = false ∧
    frameC6.length ≤ 16 ∧
    (handleCredentials xorCipher { fsm := RECEIVING_CREDENTIALS, sec := {} } frameC6).2.2 =
      some ([97, 98], []) := by
  decide

/-- C6 as amended: only when a session is established does
handleCredentials require the IV-plus-ciphertext frame shape and reject
every frame of at most 16 bytes — returning with no parsed credentials, no
status notification, and no Wi-Fi invocation; without an established
session the frame is processed as plaintext whatever its length. -/
theorem credentials_short_frame_rejected (decB : List Nat → List Nat)
    (st : SystemState) (data : List Nat)
    (hEst : st.sec.sessionEstablished = true) (hLen : data.length ≤ 16) :
    handleCredentials decB st data =
      ({ fsm := (handleEvent st.fsm StateEvent.CREDENTIALS_RECEIVED).2, sec := st.sec },
       [], none) := by
  unfold handleCredentials
  rw [hEst]
  rw [if_pos rfl, if_neg (by omega)]

/-- Witness for C6's amended theorem at a 3-byte frame under the concrete
established session. -/
theorem credentials_short_frame_rejected_witness :
    handleCredentials xorCipher stC5 [1, 2, 3] =
      ({ fsm := (handleEvent stC5.fsm StateEvent.CREDENTIALS_RECEIVED).2, sec := stC5.sec },
       [], none) :=
  credentials_short_frame_rejected xorCipher stC5 [1, 2, 3] rfl (by decide)

end WiBLE
